import Mathlib

/-!
Shallow embedding of the kingdom-scraper crawl core
(src/kingdom_archives: parser.py, state.py, crawler.py, downloader.py,
client.py, config.py) and proofs about the spec's claims.

Python strings are Lean `String`, byte strings are modelled as `String`
(the code only passes them around and writes them), Python `set[str]` is
`Finset String`, `collections.deque` used as a FIFO queue is `List`.
External collaborators (HTTP fetch, BeautifulSoup link extraction, the
filesystem, the clock, sha256) are parameters gathered in an `Env`
record; everything written by the code itself is translated directly.
-/

namespace KingdomScraper

/-! ### A model of `urllib.parse.urlparse`

The code calls `urlparse` for its `.scheme`, `.netloc`, `.path` and
`.fragment` fields.  This models CPython's parsing for http-style URLs:
split the fragment at the first `#`, recognise a scheme when the text
before the first `:` is a nonempty run of scheme characters starting
with a letter, take the netloc after `//` up to the next `/`, `?` or
`#`, and split the query at the first `?`. -/

/-- Split a character list at the first occurrence of `t`: the part
before it, and `some` remainder after it when `t` occurs. -/
def splitFirst : List Char → Char → List Char × Option (List Char)
  | [], _ => ([], none)
  | c :: cs, t =>
    if c = t then ([], some cs)
    else
      let r := splitFirst cs t
      (c :: r.1, r.2)

/-- Characters CPython accepts inside a URL scheme. -/
def isSchemeChar (c : Char) : Bool :=
  c.isAlpha || c.isDigit || c == '+' || c == '-' || c == '.'

/-- The named components returned by `urlparse`. -/
structure UrlParts where
  scheme : String
  netloc : String
  path : String
  query : String
  fragment : String
deriving Repr, DecidableEq

/-- Model of `urllib.parse.urlparse` for http-style URLs. -/
def urlparse (url : String) : UrlParts :=
  let cs := url.toList
  let fr := splitFirst cs '#'
  let fragment := fr.2.getD []
  let afterFrag := fr.1
  let sc : List Char × List Char :=
    match splitFirst afterFrag ':' with
    | (before, some after) =>
      match before with
      | [] => ([], afterFrag)
      | c :: _ =>
        if c.isAlpha && before.all isSchemeChar then
          (before.map Char.toLower, after)
        else
          ([], afterFrag)
    | (_, none) => ([], afterFrag)
  let nl : List Char × List Char :=
    match sc.2 with
    | '/' :: '/' :: tl =>
      let n := tl.takeWhile (fun c => !(c == '/' || c == '?' || c == '#'))
      (n, tl.drop n.length)
    | rest => ([], rest)
  let pq := splitFirst nl.2 '?'
  { scheme := String.mk sc.1
    netloc := String.mk nl.1
    path := String.mk pq.1
    query := String.mk (pq.2.getD [])
    fragment := String.mk fragment }

/-- Does `pre` occur at the start of the second list? -/
def startsWithChars : List Char → List Char → Bool
  | [], _ => true
  | _ :: _, [] => false
  | a :: as, b :: bs => a == b && startsWithChars as bs

/-- Does `needle` occur contiguously anywhere in `haystack`? -/
def infixChars (needle : List Char) : List Char → Bool
  | [] => needle.isEmpty
  | h :: t => startsWithChars needle (h :: t) || infixChars needle t

/-- Python's substring test `needle in haystack`. -/
def substrOf (needle haystack : String) : Bool :=
  infixChars needle.toList haystack.toList

/-- Python's `str.lower` on ASCII. -/
def lowerStr (s : String) : String :=
  String.mk (s.toList.map Char.toLower)

/-- Python's `str.endswith`. -/
def endsWithStr (s suffix : String) : Bool :=
  startsWithChars suffix.toList.reverse s.toList.reverse

/-- Split a character list at every occurrence of `c` (Python's
`str.split` with a one-character separator). -/
def splitChars (c : Char) : List Char → List (List Char)
  | [] => [[]]
  | x :: xs =>
    let r := splitChars c xs
    if x = c then [] :: r
    else
      match r with
      | [] => [[x]]
      | w :: ws => (x :: w) :: ws

/-- Python's `str.split(sep)` for a one-character separator. -/
def splitOnCh (c : Char) (s : String) : List String :=
  (splitChars c s.toList).map String.mk

/-! ### parser.py -/

/-- The fixed per-category extension sets `MEDIA_EXTENSIONS`, in the
dict's insertion order (audio, images, documents). -/
def MEDIA_EXTENSIONS : List (String × List String) :=
  [ ("audio", [".mp3", ".wav", ".ogg", ".flac", ".aac", ".m4a"])
  , ("images", [".jpg", ".jpeg", ".png", ".gif", ".webp", ".svg"])
  , ("documents", [".pdf", ".doc", ".docx", ".txt", ".csv", ".xls", ".xlsx"]) ]

/-- `parser.classify_url`: lowercase the parsed path, try the extension
sets in order, then the `:plain` special case, then the html endings,
else `"other"`. -/
def classify_url (url : String) : String :=
  let path := lowerStr (urlparse url).path
  match MEDIA_EXTENSIONS.find? (fun le => le.2.any (fun ext => endsWithStr path ext)) with
  | some le => le.1
  | none =>
    if endsWithStr path ":plain" then "documents"
    else if endsWithStr path ".html" || endsWithStr path ".htm" || endsWithStr path "/" then "html"
    else "other"

/-- The spec's reference definition of classification (section 4.1):
extension sets on the lowercased path, a path ending in `/`, `.html` or
`.htm` is html, all else `other`.  Written from the spec's words, to be
compared with `classify_url`. -/
def classifySpec (url : String) : String :=
  let path := lowerStr (urlparse url).path
  match MEDIA_EXTENSIONS.find? (fun le => le.2.any (fun ext => endsWithStr path ext)) with
  | some le => le.1
  | none =>
    if endsWithStr path "/" || endsWithStr path ".html" || endsWithStr path ".htm" then "html"
    else "other"

/-- `parser.filter_domain`: keep URLs that have a scheme and whose
netloc contains the allowed domain as a substring. -/
def filter_domain (urls : List String) (allowed_domain : String) : List String :=
  urls.filter (fun url =>
    let parsed := urlparse url
    (parsed.scheme != "") && substrOf allowed_domain parsed.netloc)

/-! ### state.py

`CrawlQueueItem` and `CrawlState` are dataclasses; the queue is a
`deque` used only through `append` and `popleft`, so it is a `List`
with FIFO at the head; `visited: set[str]` is a `Finset String`. -/

/-- `state.CrawlQueueItem`. -/
structure CrawlQueueItem where
  url : String
  depth : Nat
deriving Repr, DecidableEq

/-- `state.CrawlState`. -/
structure CrawlState where
  queue : List CrawlQueueItem
  visited : Finset String
deriving DecidableEq

/-- The dictionary produced by `CrawlState.to_dict` and consumed by
`from_dict` (the JSON text written by `json.dumps` and read back by
`json.loads` encodes exactly this structure, so the JSON codec is
modelled as the identity on it). -/
structure StateDict where
  queue : List CrawlQueueItem
  visited : List String
deriving Repr, DecidableEq

/-- `CrawlState.to_dict`: the queue as a list of item dicts, the
visited set as a list (`list(self.visited)` — Python's set iteration
order is unspecified, modelled here by the canonical sorted order). -/
def CrawlState.to_dict (s : CrawlState) : StateDict :=
  { queue := s.queue, visited := s.visited.sort (· ≤ ·) }

/-- `CrawlState.from_dict`: rebuild the queue in order and the visited
set from the list. -/
def CrawlState.from_dict (d : StateDict) : CrawlState :=
  { queue := d.queue, visited := d.visited.toFinset }

/-- `CrawlState.enqueue`: `deque.append`, i.e. push at the back. -/
def CrawlState.enqueue (s : CrawlState) (url : String) (depth : Nat) : CrawlState :=
  { s with queue := s.queue ++ [{ url := url, depth := depth }] }

/-- `CrawlState.dequeue`: `deque.popleft`; on an empty deque Python
raises (the spec's `EmptyFrontier` condition), modelled as `.error`. -/
def CrawlState.dequeue (s : CrawlState) : Except String (CrawlQueueItem × CrawlState) :=
  match s.queue with
  | [] => .error "EmptyFrontier"
  | it :: rest => .ok (it, { s with queue := rest })

/-- A store of state files: path to parsed contents. -/
def StateStore : Type := String → Option StateDict

/-- `CrawlState.persist` at the store level: write `to_dict` at `path`
(the `json.dumps` / `json.loads` round-trip through the file is the
identity on `StateDict`). -/
def CrawlState.persistStore (s : CrawlState) (path : String) (fs : StateStore) : StateStore :=
  fun q => if q = path then some s.to_dict else fs q

/-- `CrawlState.load`: an empty state when no file exists, otherwise
`from_dict` of the parsed file. -/
def CrawlState.load (path : String) (fs : StateStore) : CrawlState :=
  match fs path with
  | none => { queue := [], visited := ∅ }
  | some d => CrawlState.from_dict d

/-! #### File-level model of `persist` for the atomicity claim

`persist` runs `path.parent.mkdir(...)` then `path.write_text(json.dumps
(self.to_dict(), indent=2))`.  `Path.write_text` opens the file in mode
`w` — truncate in place, then write — with no temporary file and no
rename. -/

/-- One JSON-encoded queue item, as `json.dumps` renders it (string
escaping elided; URLs are assumed escape-free). -/
def queueItemJson (it : CrawlQueueItem) : String :=
  "\x7b\"url\": \"" ++ it.url ++ "\", \"depth\": " ++ toString it.depth ++ "\x7d"

/-- The serialized state text written by `persist` (field order and
whitespace abstracted; what matters below is that it is nonempty and a
deterministic function of the state). -/
def dumpsState (s : CrawlState) : String :=
  "\x7b\"queue\": [" ++ String.intercalate ", " (s.queue.map queueItemJson)
    ++ "], \"visited\": ["
    ++ String.intercalate ", " ((s.visited.sort (· ≤ ·)).map (fun u => "\"" ++ u ++ "\""))
    ++ "]\x7d"

/-- Filesystem micro-operations `persist` performs. -/
inductive FsOp where
  | mkdirParents (p : String)
  | writeText (p : String) (contents : String)
deriving Repr, DecidableEq

/-- The operation sequence of `CrawlState.persist`: make the parent
directory, then one in-place `write_text` of the serialized state. -/
def persistOps (s : CrawlState) (path : String) : List FsOp :=
  [FsOp.mkdirParents (path ++ "/.."), FsOp.writeText path (dumpsState s)]

/-- Contents the state file can hold if the process crashes during an
in-place `write_text newText`: the old contents (crash before the open),
or any prefix of the new text (the open truncates, then bytes are
written front to back). -/
def writeTextCrashContents (newText : String) (old : Option String) : List (Option String) :=
  old :: (List.range (newText.length + 1)).map (fun k => some (String.mk (newText.toList.take k)))

/-- Possible contents of the state file after a crash anywhere inside
`persist` (the mkdir does not touch the file). -/
def persistCrashContents (s : CrawlState) (old : Option String) : List (Option String) :=
  writeTextCrashContents (dumpsState s) old

/-- Applying a sequence of filesystem operations to a text store. -/
def runFsOps : List FsOp → (String → Option String) → (String → Option String)
  | [], fs => fs
  | FsOp.mkdirParents _ :: ops, fs => runFsOps ops fs
  | FsOp.writeText p c :: ops, fs => runFsOps ops (fun q => if q = p then some c else fs q)

/-! ### config.py -/

/-- `config.ScraperConfig` (the fields the crawl core reads; the float
`delay` and string `user_agent` play no role in any claim and are
omitted from the record they would only decorate). -/
structure ScraperConfig where
  start_url : String
  allowed_domain : String
  output_dir : String
  depth : Nat
  concurrency : Nat
  execute_downloads : Bool
  include_patterns : List String
  exclude_patterns : List String
  request_timeout : Nat
  max_retries : Nat
deriving Repr

/-- `ScraperConfig.matches_include`: an empty include list admits
everything, otherwise some pattern must occur in the URL. -/
def ScraperConfig.matches_include (cfg : ScraperConfig) (url : String) : Bool :=
  cfg.include_patterns.isEmpty || cfg.include_patterns.any (fun p => substrOf p url)

/-- `ScraperConfig.matches_exclude`: some exclude pattern occurs in the
URL. -/
def ScraperConfig.matches_exclude (cfg : ScraperConfig) (url : String) : Bool :=
  cfg.exclude_patterns.any (fun p => substrOf p url)

/-! ### downloader.py -/

/-- `MEDIA_DIR_MAP` with the `.get(classification, "media/other")`
default folded in. -/
def MEDIA_DIR_MAP (classification : String) : String :=
  if classification = "audio" then "media/audio"
  else if classification = "images" then "media/images"
  else if classification = "documents" then "media/documents"
  else if classification = "html" then "html"
  else "media/other"

/-- `downloader.DownloadRecord`. -/
structure DownloadRecord where
  url : String
  saved_path : String
  content_type : String
  content_length : Nat
  sha256 : String
  fetched_at : String
  status_code : Nat
deriving Repr, DecidableEq

/-- Maximal alphanumeric runs of a character list, for the slugify
model. -/
def slugWords : List Char → List (List Char)
  | [] => []
  | c :: cs =>
    if c.isAlphanum then
      match slugWords cs with
      | [] => [[c]]
      | w :: ws => if cs.head?.any Char.isAlphanum then (c :: w) :: ws else [c] :: w :: ws
    else slugWords cs

/-- Model of `slugify.slugify` on ASCII input: lowercase, turn each run
of non-alphanumeric characters into a single `-`, and trim leading and
trailing separators. -/
def slugify (s : String) : String :=
  String.intercalate "-" ((slugWords (s.toList.map Char.toLower)).map String.mk)

/-- Strip trailing `/` characters, Python's `str.rstrip("/")`. -/
def rstripSlash (s : String) : String :=
  String.mk (s.toList.reverse.dropWhile (fun c => c = '/')).reverse

/-- The index of the last `.` in a character list, when one occurs. -/
def lastDotIndex (cs : List Char) : Option Nat :=
  if '.' ∈ cs then some (cs.length - 1 - List.findIdx (fun c => c == '.') cs.reverse)
  else none

/-- Model of `pathlib.Path(p).suffix`: the last extension of the final
path component, empty for no dot, a leading dot or a trailing dot. -/
def pathlibSuffix (p : String) : String :=
  let name := (splitOnCh '/' (rstripSlash p)).getLastD ""
  let cs := name.toList
  match lastDotIndex cs with
  | some k => if 0 < k ∧ k < cs.length - 1 then String.mk (cs.drop k) else ""
  | none => ""

/-- `DownloadWriter._extension_from_type`: prefer the content type's
subtype (before any `;`), else fall back to the suffix of the parsed
original path. -/
def extension_from_type (content_type original_path : String) : String :=
  match splitOnCh '/' content_type with
  | _ :: subtype :: _ =>
    let subtype := (splitOnCh ';' subtype).headD subtype
    if subtype ≠ "" then "." ++ subtype
    else pathlibSuffix (urlparse original_path).path
  | _ => pathlibSuffix (urlparse original_path).path

/-- `DownloadWriter.target_path` relative to the archive root: slug of
the path (or `index` / `asset` fallbacks), extension from the content
type, in the category-keyed directory. -/
def target_rel (url classification content_type : String) : String :=
  let parsed := urlparse url
  let stem := if rstripSlash parsed.path = "" then "index" else rstripSlash parsed.path
  let slug0 := slugify (String.mk (stem.toList.map (fun c => if c = '/' then '-' else c)))
  let slug := if slug0 = "" then "asset" else slug0
  let extension := extension_from_type content_type parsed.path
  MEDIA_DIR_MAP classification ++ "/" ++ slug ++ extension

/-- `DownloadWriter.target_path`: the full on-disk path under `root`. -/
def target_path (root url classification content_type : String) : String :=
  root ++ "/" ++ target_rel url classification content_type

/-! ### client.py -/

/-- `client.HttpResult` (the `headers` dict is reduced to the two
derived properties the code reads, `content_type` and
`content_length`). -/
structure HttpResult where
  url : String
  status_code : Nat
  content : String
  content_type : String
  content_length : Nat
deriving Repr, DecidableEq

/-- The literal bound `stop_after_attempt(3)` hardcoded in the
`@retry` decorator on `HttpClient.get`. -/
def stop_after_attempt_bound : Nat := 3

/-- The retry loop of the tenacity decorator on `HttpClient.get`:
attempts are numbered from 1; a failed attempt is retried while fewer
than `bound` attempts have run, and the last failure is reraised.  The
oracle is one whole guarded request (domain validation plus GET), which
either returns a result or raises.  Returns the number of attempts made
together with the outcome. -/
def retryLoop (oracle : Nat → Except String HttpResult) : Nat → Nat → Nat × Except String HttpResult
  | _, 0 => (0, .error "retry bound must be positive")
  | attemptIdx, remaining + 1 =>
    match oracle attemptIdx with
    | .ok r => (1, .ok r)
    | .error e =>
      if remaining = 0 then (1, .error e)
      else
        let r := retryLoop oracle (attemptIdx + 1) remaining
        (r.1 + 1, r.2)

/-- `HttpClient.get` as attempt accounting: the decorator stops after
`stop_after_attempt_bound` attempts; the configuration is accepted (the
client holds it) but its `max_retries` field is never consulted. -/
def HttpClient.get (cfg : ScraperConfig) (oracle : Nat → Except String HttpResult) :
    Nat × Except String HttpResult :=
  let _ := cfg
  retryLoop oracle 1 stop_after_attempt_bound

/-! ### crawler.py

The engine's externals are gathered in `Env`: the HTTP fetch (already
wrapped in its retry loop), BeautifulSoup extraction, filesystem writes
and appends (each may fail), the digest and the clock.  Every observable
action of the engine is also recorded as an `Effect` so that theorems
can speak about what was persisted, printed or fetched. -/

/-- Observable actions of one crawl. -/
inductive Effect where
  | fetchAttempt (url : String)
  | writeFile (path : String) (contents : String)
  | writeSidecar (path : String) (record : DownloadRecord)
  | appendManifest (record : DownloadRecord)
  | persistState (path : String) (st : CrawlState)
  | printLine (msg : String)
deriving DecidableEq

/-- External collaborators of the engine. -/
structure Env where
  fetch : String → Except String HttpResult
  extract : String → String → List String × List String
  write : String → String → Except String Unit
  append : String → String → Except String Unit
  digest : String → String
  now : String

/-- JSON rendering of a `DownloadRecord` for the sidecar and manifest
writes (string escaping elided, as in `dumpsState`). -/
def recordJson (r : DownloadRecord) : String :=
  "\x7b\"url\": \"" ++ r.url ++ "\", \"saved_path\": \"" ++ r.saved_path
    ++ "\", \"content_type\": \"" ++ r.content_type
    ++ "\", \"content_length\": " ++ toString r.content_length
    ++ ", \"sha256\": \"" ++ r.sha256
    ++ "\", \"fetched_at\": \"" ++ r.fetched_at
    ++ "\", \"status_code\": " ++ toString r.status_code ++ "\x7d"

/-- `DownloadWriter.save`: write the bytes at the target path, build
the record (`content_length or len(content)`), write the sidecar
(`with_suffix(suffix + ".json")`, i.e. the asset path plus `.json`),
append one manifest line.  Effects performed before a failing write are
kept; the failure itself propagates. -/
def DownloadWriter.save (env : Env) (root : String) (r : HttpResult)
    (classification : String) : List Effect × Except String DownloadRecord :=
  let rel := target_rel r.url classification r.content_type
  let path := root ++ "/" ++ rel
  match env.write path r.content with
  | .error e => ([], .error e)
  | .ok _ =>
    let record : DownloadRecord :=
      { url := r.url
        saved_path := rel
        content_type := r.content_type
        content_length := if r.content_length = 0 then r.content.length else r.content_length
        sha256 := env.digest r.content
        fetched_at := env.now
        status_code := r.status_code }
    let sidecar := path ++ ".json"
    match env.write sidecar (recordJson record) with
    | .error e => ([Effect.writeFile path r.content], .error e)
    | .ok _ =>
      match env.append (root ++ "/manifests/downloads.log") (recordJson record ++ "\n") with
      | .error e =>
        ([Effect.writeFile path r.content, Effect.writeSidecar sidecar record], .error e)
      | .ok _ =>
        ([Effect.writeFile path r.content, Effect.writeSidecar sidecar record,
          Effect.appendManifest record], .ok record)

/-- `Crawler._should_visit`: exclude beats include, URLs with a
fragment are skipped, already-visited URLs are skipped. -/
def should_visit (cfg : ScraperConfig) (st : CrawlState) (url : String) : Bool :=
  if cfg.matches_exclude url then false
  else if !cfg.matches_include url then false
  else if (urlparse url).fragment ≠ "" then false
  else if url ∈ st.visited then false
  else true

/-- `Crawler._enqueue_new`: enqueue each link passing `_should_visit`
at the given depth. -/
def enqueue_new (cfg : ScraperConfig) (st : CrawlState) (links : List String)
    (depth : Nat) : CrawlState :=
  links.foldl (fun s link => if should_visit cfg s link then s.enqueue link depth else s) st

/-- `Crawler._enqueue_assets`: enqueue each asset passing
`_should_visit` at depth 0. -/
def enqueue_assets (cfg : ScraperConfig) (st : CrawlState) (assets : List String) : CrawlState :=
  assets.foldl (fun s asset => if should_visit cfg s asset then s.enqueue asset 0 else s) st

/-- `Crawler._handle_html`: write the raw document, extract links and
assets, domain-filter both, enqueue links at `depth + 1` and assets at
depth 0.  The write is outside any handler, so its failure
propagates. -/
def handle_html (env : Env) (cfg : ScraperConfig) (st : CrawlState) (url : String)
    (result : HttpResult) (depth : Nat) : List Effect × Except String CrawlState :=
  let html_path := target_path cfg.output_dir url "html" result.content_type
  match env.write html_path result.content with
  | .error e => ([], .error e)
  | .ok _ =>
    let la := env.extract url result.content
    let scoped_links := filter_domain la.1 cfg.allowed_domain
    let scoped_assets := filter_domain la.2 cfg.allowed_domain
    let st1 := enqueue_new cfg st scoped_links (depth + 1)
    let st2 := enqueue_assets cfg st1 scoped_assets
    ([Effect.writeFile html_path result.content], .ok st2)

/-- `Crawler._handle_asset`: in dry-run mode only report the discovery;
in execute mode run the writer's `save` and report the download.  A
failing save propagates. -/
def handle_asset (env : Env) (cfg : ScraperConfig) (st : CrawlState)
    (result : HttpResult) (classification : String) : List Effect × Except String CrawlState :=
  if !cfg.execute_downloads then
    ([Effect.printLine ("Discovered " ++ classification ++ ": " ++ result.url)], .ok st)
  else
    match DownloadWriter.save env cfg.output_dir result classification with
    | (effs, .error e) => (effs, .error e)
    | (effs, .ok record) =>
      (effs ++ [Effect.printLine ("Downloaded " ++ classification ++ ": " ++ record.saved_path)],
        .ok st)

/-- `Crawler._process_url`: the `try` block wraps only the fetch — a
fetch failure is printed and the item dropped; the routing calls after
it are unguarded, so their failures escape. -/
def process_url (env : Env) (cfg : ScraperConfig) (st : CrawlState) (url : String)
    (classification : String) (depth : Nat) : List Effect × Except String CrawlState :=
  match env.fetch url with
  | .error e =>
    ([Effect.fetchAttempt url, Effect.printLine ("Failed to fetch " ++ url ++ ": " ++ e)],
      .ok st)
  | .ok result =>
    if classification = "html" then
      let r := handle_html env cfg st url result depth
      (Effect.fetchAttempt url :: r.1, r.2)
    else
      let r := handle_asset env cfg st result classification
      (Effect.fetchAttempt url :: r.1, r.2)

/-- The fixed path of the state file under the archive root. -/
def crawl_state_path (cfg : ScraperConfig) : String :=
  cfg.output_dir ++ "/manifests/crawl-state.json"

/-- `Crawler.run`: drain the queue; skip depth-exceeded and visited
items (`continue`, which also skips the checkpoint); otherwise mark
visited, classify, process (the single submitted future is awaited at
once, and `completed.result()` reraises its exception, aborting the
run), then checkpoint.  `fuel` bounds the number of loop iterations so
the model is total; every claim below holds for all fuel values. -/
def runCrawler (env : Env) (cfg : ScraperConfig) : Nat → CrawlState → List Effect × Except String CrawlState
  | 0, st => ([], .ok st)
  | fuel + 1, st =>
    match st.queue with
    | [] => ([], .ok st)
    | item :: rest =>
      let st1 : CrawlState := { st with queue := rest }
      if cfg.depth < item.depth then
        runCrawler env cfg fuel st1
      else if item.url ∈ st1.visited then
        runCrawler env cfg fuel st1
      else
        let st2 : CrawlState := { st1 with visited := insert item.url st1.visited }
        let classification := classify_url item.url
        let pr := process_url env cfg st2 item.url classification item.depth
        match pr.2 with
        | .error e => (pr.1, .error e)
        | .ok st3 =>
          let res := runCrawler env cfg fuel st3
          (pr.1 ++ Effect.persistState (crawl_state_path cfg) st3 :: res.1, res.2)

/-! ### Frontier operation sequences

To state the FIFO property over arbitrary interleavings of `enqueue`
and `dequeue`, frontier scripts are run against a `CrawlState`; a
dequeue on an empty queue aborts the script with the `EmptyFrontier`
error, as `popleft` raises in Python. -/

/-- One frontier operation. -/
inductive FrontierOp where
  | enq (url : String) (depth : Nat)
  | deq
deriving Repr, DecidableEq

/-- The items enqueued by a script, in order. -/
def enqueuedOf : List FrontierOp → List CrawlQueueItem
  | [] => []
  | FrontierOp.enq u d :: ops => { url := u, depth := d } :: enqueuedOf ops
  | FrontierOp.deq :: ops => enqueuedOf ops

/-- Run a frontier script, collecting the dequeued items in order. -/
def runOps : List FrontierOp → CrawlState → Except String (CrawlState × List CrawlQueueItem)
  | [], st => .ok (st, [])
  | FrontierOp.enq u d :: ops, st => runOps ops (st.enqueue u d)
  | FrontierOp.deq :: ops, st =>
    match st.dequeue with
    | .error e => .error e
    | .ok (it, st') =>
      match runOps ops st' with
      | .error e => .error e
      | .ok (stf, outs) => .ok (stf, it :: outs)

/-! ### Concrete fixtures used by counterexamples and witnesses -/

/-- A configuration with every default of `ScraperConfig` (dry run). -/
def cfgDry : ScraperConfig :=
  { start_url := "https://kingdomarchives.com"
    allowed_domain := "kingdomarchives.com"
    output_dir := "data"
    depth := 3
    concurrency := 4
    execute_downloads := false
    include_patterns := []
    exclude_patterns := []
    request_timeout := 20
    max_retries := 3 }

/-- An environment whose collaborators all succeed: the fetch returns a
small html document, extraction finds nothing, writes succeed. -/
def envOk : Env :=
  { fetch := fun u =>
      .ok { url := u, status_code := 200, content := "<html></html>"
            content_type := "text/html", content_length := 0 }
    extract := fun _ _ => ([], [])
    write := fun _ _ => .ok ()
    append := fun _ _ => .ok ()
    digest := fun _ => "d0"
    now := "2026-01-01T00:00:00+00:00" }

/-- Like `envOk` but every filesystem write fails. -/
def envWriteFail : Env := { envOk with write := fun _ _ => .error "disk full" }

/-- Like `envOk` but the fetch always fails. -/
def envFetchFail : Env := { envOk with fetch := fun _ => .error "timeout" }

/-- Like `envOk` but extraction yields one in-domain link and one
in-domain asset reference. -/
def envLinks : Env :=
  { envOk with extract := fun _ _ =>
      (["https://kingdomarchives.com/wiki"], ["https://kingdomarchives.com/clip.mp3"]) }

/-- A one-item state: the start URL queued at depth 0, nothing
visited. -/
def stStart : CrawlState :=
  { queue := [{ url := "https://kingdomarchives.com/", depth := 0 }], visited := ∅ }

/-! ### Theorems: claims C2, C4, C7, C8, C10 -/

/-- C2.  Loading the state file written by `persist` restores the state
exactly: the queue has the same items in the same order, and the
visited set is the same set of strings. -/
theorem load_persist_roundtrip (s : CrawlState) (path : String) (fs : StateStore) :
    CrawlState.load path (CrawlState.persistStore s path fs) = s := by
  obtain ⟨q, v⟩ := s
  simp [CrawlState.load, CrawlState.persistStore, CrawlState.from_dict, CrawlState.to_dict,
    Finset.sort_toFinset]

/-- C4 counterexample.  `classify_url` does not match the spec's
reference classification: a path ending in `:plain` (no media
extension, no html ending) is classified `documents` by the code but
`other` by the spec's rules. -/
theorem classify_plain_suffix_diverges :
    classify_url "https://kingdomarchives.com/a:plain" = "documents" ∧
    classifySpec "https://kingdomarchives.com/a:plain" = "other" := by
  exact ⟨rfl, rfl⟩

/-- C4 amended.  For every URL whose lowercased parsed path does not
end in `:plain`, `classify_url` agrees with the spec's reference
definition; `:plain` paths classify as `documents`. -/
theorem classify_matches_spec_off_plain (url : String)
    (h : endsWithStr (lowerStr (urlparse url).path) ":plain" = false) :
    classify_url url = classifySpec url := by
  unfold classify_url classifySpec
  cases hf : MEDIA_EXTENSIONS.find?
      (fun le => le.2.any (fun ext => endsWithStr (lowerStr (urlparse url).path) ext)) with
  | some le => simp [hf]
  | none =>
    simp only [hf, h]
    cases h1 : endsWithStr (lowerStr (urlparse url).path) ".html" <;>
      cases h2 : endsWithStr (lowerStr (urlparse url).path) ".htm" <;>
        cases h3 : endsWithStr (lowerStr (urlparse url).path) "/" <;>
          simp [h1, h2, h3]

/-- C4 witness: the amended agreement evaluated at a concrete URL. -/
theorem classify_matches_spec_off_plain_witness :
    classify_url "https://kingdomarchives.com/a.mp3" =
      classifySpec "https://kingdomarchives.com/a.mp3" :=
  classify_matches_spec_off_plain "https://kingdomarchives.com/a.mp3" (by decide)

/-- C7 counterexample.  `persist` is not write-new-then-replace: a
crash during its in-place `write_text` can leave the state file
truncated to a content that is neither the old checkpoint nor the new
one (here: the empty file). -/
theorem persist_truncation_loses_old_state :
    some "" ∈ persistCrashContents stStart (some "OLD") ∧
    some "" ≠ (some "OLD" : Option String) ∧
    some "" ≠ some (dumpsState stStart) := by
  refine ⟨?_, by decide, by decide⟩
  exact List.mem_cons_of_mem _ (List.mem_map.mpr ⟨0, by simp, rfl⟩)

/-- C7 amended.  `persist` writes the serialized state directly in
place: a completed persist leaves exactly the serialized text at the
state path, and an interrupted one leaves the old contents or some
prefix of the new text (possibly empty) — not necessarily the previous
checkpoint. -/
theorem persist_in_place_semantics :
    (∀ (s : CrawlState) (path : String) (fs : String → Option String),
        runFsOps (persistOps s path) fs path = some (dumpsState s)) ∧
    (∀ (s : CrawlState) (old c : Option String),
        c ∈ persistCrashContents s old →
        c = old ∨ ∃ k, c = some (String.mk ((dumpsState s).toList.take k))) := by
  constructor
  · intro s path fs
    simp [persistOps, runFsOps]
  · intro s old c hc
    rcases List.mem_cons.mp hc with h | h
    · exact Or.inl h
    · rcases List.mem_map.mp h with ⟨k, _, hk⟩
      exact Or.inr ⟨k, hk.symm⟩

/-- C7 witness: the amended semantics evaluated at concrete inputs. -/
theorem persist_in_place_semantics_witness :
    runFsOps (persistOps stStart "p") (fun _ => none) "p" = some (dumpsState stStart) ∧
    (some "" = (some "OLD" : Option String) ∨
      ∃ k, (some "" : Option String) = some (String.mk ((dumpsState stStart).toList.take k))) :=
  ⟨persist_in_place_semantics.1 stStart "p" (fun _ => none),
   persist_in_place_semantics.2 stStart (some "OLD") (some "")
     (List.mem_cons_of_mem _ (List.mem_map.mpr ⟨0, by simp, rfl⟩))⟩

/-- C8.  The retry bound is hardcoded: with `max_retries := 5` in the
configuration and a request that always fails, `HttpClient.get` still
makes exactly 3 attempts (`stop_after_attempt(3)`), and its behaviour
is identical under any `max_retries` value. -/
theorem retry_bound_hardcoded_three :
    (HttpClient.get { cfgDry with max_retries := 5 } (fun _ => .error "timeout")).1 = 3 ∧
    ({ cfgDry with max_retries := 5 } : ScraperConfig).max_retries = 5 ∧
    HttpClient.get { cfgDry with max_retries := 5 } (fun _ => .error "timeout") =
      HttpClient.get cfgDry (fun _ => .error "timeout") := by
  exact ⟨rfl, rfl, rfl⟩

/-- C10.  `target_path` is not injective: two distinct URLs with the
same classification and content type (differing only in the query
string, which slugification of the path drops) map to the identical
on-disk path, so the second save overwrites the first. -/
theorem target_path_not_injective :
    "https://kingdomarchives.com/song.mp3?v=1" ≠ "https://kingdomarchives.com/song.mp3?v=2" ∧
    classify_url "https://kingdomarchives.com/song.mp3?v=1" = "audio" ∧
    classify_url "https://kingdomarchives.com/song.mp3?v=2" = "audio" ∧
    target_path "data" "https://kingdomarchives.com/song.mp3?v=1" "audio" "audio/mpeg" =
      target_path "data" "https://kingdomarchives.com/song.mp3?v=2" "audio" "audio/mpeg" := by
  exact ⟨by decide, rfl, rfl, rfl⟩

/-! ### Theorems: claims C1 and C3 -/

/-- Does an effect persist asset or document bytes to disk (an asset
or document file, a sidecar, or a manifest line)? -/
def persistsAssetBytes : Effect → Bool
  | Effect.writeFile _ _ => true
  | Effect.writeSidecar _ _ => true
  | Effect.appendManifest _ => true
  | _ => false

/-- C1 counterexample.  Dry-run mode persists bytes after all: with
`execute_downloads = false`, processing an html-classified fetched
result writes the raw document to disk (`_handle_html` writes
unconditionally). -/
theorem dry_run_writes_html_document :
    cfgDry.execute_downloads = false ∧
    Effect.writeFile (target_path "data" "https://kingdomarchives.com/" "html" "text/html")
        "<html></html>"
      ∈ (process_url envOk cfgDry { queue := [], visited := ∅ }
          "https://kingdomarchives.com/" (classify_url "https://kingdomarchives.com/") 0).1 := by
  refine ⟨rfl, ?_⟩
  decide

/-- C1 amended.  In dry-run mode, processing a non-html-classified item
persists nothing: no asset file, no sidecar, no manifest line (html
documents, by contrast, are written regardless of the mode). -/
theorem dry_run_non_html_persists_nothing (env : Env) (cfg : ScraperConfig)
    (st : CrawlState) (url cls : String) (depth : Nat)
    (hdry : cfg.execute_downloads = false) (hcls : cls ≠ "html") :
    ∀ e ∈ (process_url env cfg st url cls depth).1, persistsAssetBytes e = false := by
  intro e he
  cases hf : env.fetch url with
  | error err =>
    simp only [process_url, hf, List.mem_cons, List.not_mem_nil, or_false] at he
    rcases he with rfl | rfl <;> rfl
  | ok result =>
    simp only [process_url, hf, if_neg hcls, handle_asset, hdry, Bool.not_false, if_true,
      List.mem_cons, List.not_mem_nil, or_false] at he
    rcases he with rfl | rfl <;> rfl

/-- C1 witness: the amended statement evaluated on a concrete dry-run
asset item. -/
theorem dry_run_non_html_persists_nothing_witness :
    persistsAssetBytes (Effect.fetchAttempt "https://kingdomarchives.com/song.mp3") = false :=
  dry_run_non_html_persists_nothing envOk cfgDry { queue := [], visited := ∅ }
    "https://kingdomarchives.com/song.mp3" "audio" 0 rfl (by decide)
    (Effect.fetchAttempt "https://kingdomarchives.com/song.mp3") (by decide)

/-- C3 counterexample.  A write failure during HTML handling is not
caught at the item-processing boundary: it propagates out of the run
loop, aborting the run with the error instead of dropping the item. -/
theorem html_write_failure_aborts_run :
    (runCrawler envWriteFail cfgDry 1 stStart).2 = .error "disk full" := by
  rfl

/-- C3 amended.  Fetch failures are caught at the item-processing
boundary: the failure is printed with the offending URL and the item is
dropped with the state unchanged.  Failures in the routing that follows
(such as the HTML write) are unguarded and propagate. -/
theorem fetch_failure_caught_and_dropped (env : Env) (cfg : ScraperConfig)
    (st : CrawlState) (url cls : String) (depth : Nat) (e : String)
    (hf : env.fetch url = .error e) :
    process_url env cfg st url cls depth =
      ([Effect.fetchAttempt url, Effect.printLine ("Failed to fetch " ++ url ++ ": " ++ e)],
        .ok st) := by
  unfold process_url
  rw [hf]

/-- C3 witness: the amended statement evaluated on a concrete failing
fetch. -/
theorem fetch_failure_caught_and_dropped_witness :
    process_url envFetchFail cfgDry { queue := [], visited := ∅ }
        "https://kingdomarchives.com/x" "html" 0 =
      ([Effect.fetchAttempt "https://kingdomarchives.com/x",
        Effect.printLine ("Failed to fetch " ++ "https://kingdomarchives.com/x" ++ ": " ++ "timeout")],
        .ok { queue := [], visited := ∅ }) :=
  fetch_failure_caught_and_dropped envFetchFail cfgDry { queue := [], visited := ∅ }
    "https://kingdomarchives.com/x" "html" 0 "timeout" rfl

/-! ### Supporting lemmas about the engine -/

/-- `_should_visit` reads only the visited set of the state, so states
with equal visited sets agree on it. -/
theorem should_visit_congr (cfg : ScraperConfig) {s t : CrawlState}
    (h : s.visited = t.visited) (u : String) :
    should_visit cfg s u = should_visit cfg t u := by
  simp [should_visit, h]

/-- `enqueue` leaves the visited set unchanged. -/
theorem enqueue_visited (s : CrawlState) (url : String) (depth : Nat) :
    (s.enqueue url depth).visited = s.visited := rfl

/-- The enqueue fold appends exactly the admitted links, each at the
given depth, and never touches the visited set. -/
theorem enqueue_new_spec (cfg : ScraperConfig) (d : Nat) :
    ∀ (links : List String) (st : CrawlState),
      (enqueue_new cfg st links d).visited = st.visited ∧
      (enqueue_new cfg st links d).queue =
        st.queue ++ (links.filter (fun l => should_visit cfg st l)).map
          (fun u => { url := u, depth := d }) := by
  intro links
  induction links with
  | nil => intro st; simp [enqueue_new]
  | cons l ls ih =>
    intro st
    by_cases hv : should_visit cfg st l
    · have hstep : enqueue_new cfg st (l :: ls) d = enqueue_new cfg (st.enqueue l d) ls d := by
        simp [enqueue_new, hv]
      obtain ⟨ihv, ihq⟩ := ih (st.enqueue l d)
      rw [hstep]
      refine ⟨by rw [ihv]; rfl, ?_⟩
      rw [ihq]
      have hpred : ∀ x ∈ ls, should_visit cfg (st.enqueue l d) x = should_visit cfg st x :=
        fun x _ => should_visit_congr cfg rfl x
      rw [List.filter_congr hpred]
      simp [CrawlState.enqueue, hv]
    · have hstep : enqueue_new cfg st (l :: ls) d = enqueue_new cfg st ls d := by
        simp [enqueue_new, hv]
      obtain ⟨ihv, ihq⟩ := ih st
      rw [hstep]
      refine ⟨ihv, ?_⟩
      rw [ihq]
      simp [hv]

/-- `_enqueue_assets` is the enqueue fold at depth 0. -/
theorem enqueue_assets_eq (cfg : ScraperConfig) (st : CrawlState) (assets : List String) :
    enqueue_assets cfg st assets = enqueue_new cfg st assets 0 := rfl

/-- A successful `_handle_html` keeps the visited set and appends to
the queue exactly the extracted links that survive the domain filter
and `_should_visit`, each at `depth + 1`, followed by exactly the
extracted asset references that survive the same two filters, each at
depth 0. -/
theorem handle_html_ok (env : Env) (cfg : ScraperConfig) (st : CrawlState)
    (url : String) (result : HttpResult) (depth : Nat) {effs : List Effect}
    {st' : CrawlState}
    (h : handle_html env cfg st url result depth = (effs, .ok st')) :
    st'.visited = st.visited ∧
    st'.queue = st.queue
      ++ (List.filter (fun l => should_visit cfg st l)
            (filter_domain (env.extract url result.content).1 cfg.allowed_domain)).map
          (fun u => { url := u, depth := depth + 1 })
      ++ (List.filter (fun l => should_visit cfg st l)
            (filter_domain (env.extract url result.content).2 cfg.allowed_domain)).map
          (fun u => { url := u, depth := 0 }) := by
  unfold handle_html at h
  dsimp only at h
  split at h
  · simp at h
  · simp only [Prod.mk.injEq, Except.ok.injEq] at h
    obtain ⟨-, h2⟩ := h
    set scoped_links := filter_domain (env.extract url result.content).1 cfg.allowed_domain
    set scoped_assets := filter_domain (env.extract url result.content).2 cfg.allowed_domain
    set st1 := enqueue_new cfg st scoped_links (depth + 1) with hst1
    obtain ⟨hv1, hq1⟩ := enqueue_new_spec cfg (depth + 1) scoped_links st
    obtain ⟨hv2, hq2⟩ := enqueue_new_spec cfg 0 scoped_assets st1
    have hvis1 : st1.visited = st.visited := by rw [hst1]; exact hv1
    have hpred : ∀ x ∈ scoped_assets, should_visit cfg st1 x = should_visit cfg st x :=
      fun x _ => should_visit_congr cfg hvis1 x
    rw [← h2, enqueue_assets_eq]
    refine ⟨by rw [hv2, hst1, hv1], ?_⟩
    rw [hq2, List.filter_congr hpred, hst1, hq1]

/-- A successful `_handle_asset` returns the state unchanged. -/
theorem handle_asset_ok (env : Env) (cfg : ScraperConfig) (st : CrawlState)
    (result : HttpResult) (cls : String) {effs : List Effect} {st' : CrawlState}
    (h : handle_asset env cfg st result cls = (effs, .ok st')) : st' = st := by
  unfold handle_asset at h
  split at h
  · simp only [Prod.mk.injEq, Except.ok.injEq] at h
    exact h.2.symm
  · split at h
    · simp at h
    · simp only [Prod.mk.injEq, Except.ok.injEq] at h
      exact h.2.symm

/-- A successful `_process_url` never changes the visited set. -/
theorem process_url_visited (env : Env) (cfg : ScraperConfig) (st : CrawlState)
    (url cls : String) (depth : Nat) {st' : CrawlState}
    (h : (process_url env cfg st url cls depth).2 = .ok st') :
    st'.visited = st.visited := by
  unfold process_url at h
  split at h
  · simp only [Except.ok.injEq] at h
    rw [← h]
  · rename_i result hf
    split at h
    · rcases hh : handle_html env cfg st url result depth with ⟨fst, snd⟩
      rw [hh] at h
      simp only at h
      cases snd with
      | error e => cases h
      | ok s2 =>
        rw [Except.ok.injEq] at h
        rw [← h]
        exact (handle_html_ok env cfg st url result depth hh).1
    · rcases ha : handle_asset env cfg st result cls with ⟨fst, snd⟩
      rw [ha] at h
      simp only at h
      cases snd with
      | error e => cases h
      | ok s2 =>
        rw [Except.ok.injEq] at h
        rw [← h, handle_asset_ok env cfg st result cls ha]

/-- `save` emits no fetch-attempt effect. -/
theorem save_no_fetch (env : Env) (root : String) (r : HttpResult) (cls u : String) :
    Effect.fetchAttempt u ∉ (DownloadWriter.save env root r cls).1 := by
  unfold DownloadWriter.save
  dsimp only
  split <;> (try split) <;> (try split) <;> (try split) <;> simp

/-- The only fetch-attempt effect `_process_url` can emit is for its
own URL. -/
theorem process_url_fetch_only (env : Env) (cfg : ScraperConfig) (st : CrawlState)
    (url cls : String) (depth : Nat) {u : String}
    (h : Effect.fetchAttempt u ∈ (process_url env cfg st url cls depth).1) : u = url := by
  have hhtml : ∀ result, Effect.fetchAttempt u ∉ (handle_html env cfg st url result depth).1 := by
    intro result
    unfold handle_html
    dsimp only
    split
    · simp
    · simp
  have hasset : ∀ result, Effect.fetchAttempt u ∉ (handle_asset env cfg st result cls).1 := by
    intro result
    unfold handle_asset
    split
    · simp
    · rcases hs : DownloadWriter.save env cfg.output_dir result cls with ⟨fst, snd⟩
      have hfst : Effect.fetchAttempt u ∉ fst := by
        have := save_no_fetch env cfg.output_dir result cls u
        rw [hs] at this
        exact this
      cases snd with
      | error e => simpa [hs] using hfst
      | ok record =>
        simp only [hs, List.mem_append, List.mem_cons, List.not_mem_nil, or_false]
        rintro (hm | hm)
        · exact hfst hm
        · cases hm
  unfold process_url at h
  split at h
  · simp only [List.mem_cons, List.not_mem_nil, or_false] at h
    rcases h with h | h
    · injection h
    · cases h
  · rename_i result hf
    split at h
    · simp only [List.mem_cons] at h
      rcases h with h | h
      · injection h
      · exact absurd h (hhtml result)
    · simp only [List.mem_cons] at h
      rcases h with h | h
      · injection h
      · exact absurd h (hasset result)

/-- One unfolding of the run loop on a non-empty queue. -/
theorem runCrawler_cons (env : Env) (cfg : ScraperConfig) (fuel : Nat)
    (item : CrawlQueueItem) (rest : List CrawlQueueItem) (vis : Finset String) :
    runCrawler env cfg (fuel + 1) { queue := item :: rest, visited := vis } =
      if cfg.depth < item.depth then
        runCrawler env cfg fuel { queue := rest, visited := vis }
      else if item.url ∈ vis then
        runCrawler env cfg fuel { queue := rest, visited := vis }
      else
        let pr := process_url env cfg { queue := rest, visited := insert item.url vis }
          item.url (classify_url item.url) item.depth
        match pr.2 with
        | .error e => (pr.1, .error e)
        | .ok st3 =>
          let res := runCrawler env cfg fuel st3
          (pr.1 ++ Effect.persistState (crawl_state_path cfg) st3 :: res.1, res.2) := rfl

/-- The run loop halts on an empty queue. -/
theorem runCrawler_nil (env : Env) (cfg : ScraperConfig) (fuel : Nat) (vis : Finset String) :
    runCrawler env cfg (fuel + 1) { queue := [], visited := vis } =
      ([], .ok { queue := [], visited := vis }) := rfl

/-! ### Theorems: claims C5, C6, C9 -/

/-- C5.  Depth discipline: a successful `_handle_html` of a page at
depth D appends to the queue exactly the extracted links admitted by
the domain filter and `_should_visit`, each at depth D+1, followed by
exactly the extracted asset references admitted by the same filters,
each at depth 0 (so every enqueued link is at D+1 and every enqueued
asset at 0, whatever the page's depth); and a dequeued item whose depth
exceeds the configured maximum is discarded — the loop continues on the
popped queue with the visited set unchanged. -/
theorem depth_discipline :
    (∀ (env : Env) (cfg : ScraperConfig) (st : CrawlState) (url : String)
        (result : HttpResult) (depth : Nat) (effs : List Effect) (st' : CrawlState),
        handle_html env cfg st url result depth = (effs, .ok st') →
        st'.queue = st.queue
          ++ (List.filter (fun l => should_visit cfg st l)
                (filter_domain (env.extract url result.content).1 cfg.allowed_domain)).map
              (fun u => { url := u, depth := depth + 1 })
          ++ (List.filter (fun l => should_visit cfg st l)
                (filter_domain (env.extract url result.content).2 cfg.allowed_domain)).map
              (fun u => { url := u, depth := 0 })) ∧
    (∀ (env : Env) (cfg : ScraperConfig) (fuel : Nat) (item : CrawlQueueItem)
        (rest : List CrawlQueueItem) (vis : Finset String),
        cfg.depth < item.depth →
        runCrawler env cfg (fuel + 1) { queue := item :: rest, visited := vis } =
          runCrawler env cfg fuel { queue := rest, visited := vis }) := by
  constructor
  · intro env cfg st url result depth effs st' h
    exact (handle_html_ok env cfg st url result depth h).2
  · intro env cfg fuel item rest vis hd
    rw [runCrawler_cons, if_pos hd]

/-- C5 witness: the two parts evaluated on concrete inputs — a depth-0
page whose extraction yields one in-domain link (enqueued at depth 1)
and one in-domain asset reference (enqueued at depth 0), and a depth-4
item under the default maximum of 3. -/
theorem depth_discipline_witness :
    (CrawlState.mk
        [{ url := "https://kingdomarchives.com/wiki", depth := 1 },
         { url := "https://kingdomarchives.com/clip.mp3", depth := 0 }] ∅).queue =
      (CrawlState.mk [] ∅).queue
        ++ (List.filter (fun l => should_visit cfgDry (CrawlState.mk [] ∅) l)
              (filter_domain (envLinks.extract "https://kingdomarchives.com/" "<html></html>").1
                cfgDry.allowed_domain)).map (fun u => { url := u, depth := 0 + 1 })
        ++ (List.filter (fun l => should_visit cfgDry (CrawlState.mk [] ∅) l)
              (filter_domain (envLinks.extract "https://kingdomarchives.com/" "<html></html>").2
                cfgDry.allowed_domain)).map (fun u => { url := u, depth := 0 }) ∧
    runCrawler envOk cfgDry (0 + 1)
        { queue := [{ url := "https://kingdomarchives.com/deep", depth := 4 }], visited := ∅ } =
      runCrawler envOk cfgDry 0 { queue := [], visited := ∅ } :=
  ⟨depth_discipline.1 envLinks cfgDry (CrawlState.mk [] ∅) "https://kingdomarchives.com/"
      { url := "https://kingdomarchives.com/", status_code := 200, content := "<html></html>"
        content_type := "text/html", content_length := 0 } 0 _
      (CrawlState.mk
        [{ url := "https://kingdomarchives.com/wiki", depth := 1 },
         { url := "https://kingdomarchives.com/clip.mp3", depth := 0 }] ∅) rfl,
   depth_discipline.2 envOk cfgDry 0 { url := "https://kingdomarchives.com/deep", depth := 4 }
      [] ∅ (by decide)⟩

/-- C6.  Once a URL is in the visited set it is never reprocessed: a
dequeue of a visited URL is a pure skip (the loop continues on the
popped queue, with no effects), and no run from a state whose visited
set contains `u` ever dispatches a fetch for `u`, however often `u`
still occurs in the queue. -/
theorem visited_never_reprocessed :
    (∀ (env : Env) (cfg : ScraperConfig) (fuel : Nat) (item : CrawlQueueItem)
        (rest : List CrawlQueueItem) (vis : Finset String),
        item.url ∈ vis →
        runCrawler env cfg (fuel + 1) { queue := item :: rest, visited := vis } =
          runCrawler env cfg fuel { queue := rest, visited := vis }) ∧
    (∀ (env : Env) (cfg : ScraperConfig) (fuel : Nat) (st : CrawlState) (u : String),
        u ∈ st.visited →
        Effect.fetchAttempt u ∉ (runCrawler env cfg fuel st).1) := by
  have skip : ∀ (env : Env) (cfg : ScraperConfig) (fuel : Nat) (item : CrawlQueueItem)
      (rest : List CrawlQueueItem) (vis : Finset String),
      item.url ∈ vis →
      runCrawler env cfg (fuel + 1) { queue := item :: rest, visited := vis } =
        runCrawler env cfg fuel { queue := rest, visited := vis } := by
    intro env cfg fuel item rest vis hv
    rw [runCrawler_cons]
    by_cases hd : cfg.depth < item.depth
    · rw [if_pos hd]
    · rw [if_neg hd, if_pos hv]
  refine ⟨skip, ?_⟩
  intro env cfg fuel
  induction fuel with
  | zero =>
    intro st u hu
    simp [runCrawler]
  | succ n ih =>
    intro st u hu
    obtain ⟨q, vis⟩ := st
    simp only at hu
    cases q with
    | nil => simp [runCrawler_nil]
    | cons item rest =>
      by_cases hd : cfg.depth < item.depth
      · rw [runCrawler_cons, if_pos hd]
        exact ih { queue := rest, visited := vis } u hu
      · by_cases hv : item.url ∈ vis
        · rw [skip env cfg n item rest vis hv]
          exact ih { queue := rest, visited := vis } u hu
        · have hne : u ≠ item.url := fun h => hv (h ▸ hu)
          rw [runCrawler_cons, if_neg hd, if_neg hv]
          dsimp only
          rcases hpr : process_url env cfg { queue := rest, visited := insert item.url vis }
              item.url (classify_url item.url) item.depth with ⟨effs, res⟩
          have heffs : Effect.fetchAttempt u ∉ effs := by
            intro hm
            exact hne (process_url_fetch_only env cfg
              { queue := rest, visited := insert item.url vis }
              item.url (classify_url item.url) item.depth (by rw [hpr]; exact hm))
          dsimp only
          cases res with
          | error e => exact heffs
          | ok st3 =>
            simp only [List.mem_append, List.mem_cons, not_or]
            refine ⟨heffs, by simp, ?_⟩
            have hv3 : st3.visited = insert item.url vis :=
              process_url_visited env cfg { queue := rest, visited := insert item.url vis }
                item.url (classify_url item.url) item.depth (by rw [hpr])
            exact ih st3 u (by rw [hv3]; exact Finset.mem_insert_of_mem hu)

/-- C6 witness: the two parts evaluated on a concrete state whose only
queued URL is already visited. -/
theorem visited_never_reprocessed_witness :
    runCrawler envOk cfgDry (0 + 1)
        { queue := [{ url := "https://kingdomarchives.com/", depth := 0 }]
          visited := {"https://kingdomarchives.com/"} } =
      runCrawler envOk cfgDry 0
        { queue := [], visited := {"https://kingdomarchives.com/"} } ∧
    Effect.fetchAttempt "https://kingdomarchives.com/" ∉
      (runCrawler envOk cfgDry 3
        { queue := [{ url := "https://kingdomarchives.com/", depth := 0 }]
          visited := {"https://kingdomarchives.com/"} }).1 :=
  ⟨visited_never_reprocessed.1 envOk cfgDry 0 { url := "https://kingdomarchives.com/", depth := 0 }
      [] {"https://kingdomarchives.com/"} (Finset.mem_singleton.mpr rfl),
   visited_never_reprocessed.2 envOk cfgDry 3
      { queue := [{ url := "https://kingdomarchives.com/", depth := 0 }]
        visited := {"https://kingdomarchives.com/"} }
      "https://kingdomarchives.com/" (Finset.mem_singleton.mpr rfl)⟩

/-- C9.  The frontier is strict FIFO: over any script of enqueues and
dequeues that runs without hitting an empty queue, the dequeued items
followed by the remaining queue equal the initial queue followed by the
enqueued items in order (so dequeue order is enqueue order); and a
dequeue on an empty queue fails with the `EmptyFrontier` error. -/
theorem frontier_fifo_and_empty_dequeue :
    (∀ (ops : List FrontierOp) (st stf : CrawlState) (outs : List CrawlQueueItem),
        runOps ops st = .ok (stf, outs) →
        outs ++ stf.queue = st.queue ++ enqueuedOf ops) ∧
    (∀ st : CrawlState, st.queue = [] → st.dequeue = .error "EmptyFrontier") := by
  constructor
  · intro ops
    induction ops with
    | nil =>
      intro st stf outs h
      simp only [runOps, Except.ok.injEq, Prod.mk.injEq] at h
      obtain ⟨h1, h2⟩ := h
      subst h1
      subst h2
      simp [enqueuedOf]
    | cons op ops ih =>
      cases op with
      | enq u d =>
        intro st stf outs h
        simp only [runOps] at h
        have hrec := ih (st.enqueue u d) stf outs h
        simp only [CrawlState.enqueue] at hrec
        simpa [enqueuedOf, List.append_assoc] using hrec
      | deq =>
        intro st stf outs h
        obtain ⟨q, vis⟩ := st
        cases q with
        | nil => simp [runOps, CrawlState.dequeue] at h
        | cons it rest =>
          simp only [runOps, CrawlState.dequeue] at h
          cases hrec : runOps ops { queue := rest, visited := vis } with
          | error e => rw [hrec] at h; cases h
          | ok p =>
            obtain ⟨stf', outs'⟩ := p
            rw [hrec] at h
            simp only [Except.ok.injEq, Prod.mk.injEq] at h
            obtain ⟨h1, h2⟩ := h
            subst h1
            subst h2
            have hfin := ih { queue := rest, visited := vis } stf' outs' hrec
            simp only at hfin
            simp only [enqueuedOf, List.cons_append]
            rw [hfin]
  · intro st h
    obtain ⟨q, vis⟩ := st
    simp only at h
    subst h
    rfl

/-- C9 witness: the FIFO law evaluated on the script enqueue a, enqueue
b, dequeue — the dequeued item is a, the first enqueued — and the
empty-dequeue error on the empty state. -/
theorem frontier_fifo_and_empty_dequeue_witness :
    ([{ url := "a", depth := 0 }] : List CrawlQueueItem) ++ [{ url := "b", depth := 1 }] =
      [] ++ enqueuedOf [FrontierOp.enq "a" 0, FrontierOp.enq "b" 1, FrontierOp.deq] ∧
    CrawlState.dequeue { queue := [], visited := ∅ } = .error "EmptyFrontier" :=
  ⟨frontier_fifo_and_empty_dequeue.1 [FrontierOp.enq "a" 0, FrontierOp.enq "b" 1, FrontierOp.deq]
      { queue := [], visited := ∅ }
      { queue := [{ url := "b", depth := 1 }], visited := ∅ } [{ url := "a", depth := 0 }] rfl,
   frontier_fifo_and_empty_dequeue.2 { queue := [], visited := ∅ } rfl⟩

end KingdomScraper
